import Mathlib

/-!
Shallow embedding of the broker kernel of the pub-sub repository
(file src/pubsub/pubsub.go).  Go maps become functions into Option,
pointers to topics and subscribers are flattened to their string keys
(the code always stores a subscriber under its own id), channels become
bounded lists with non-blocking offer, and timestamps become natural
number ticks passed in as an explicit argument.  Asynchronous
subscriber removals spawned by the fan-out path are recorded in a
pending set instead of being executed, mirroring the go statement in
notifySubscribers.
-/

namespace PubSubSys

/-- Model of models.Message: client-assigned id and an opaque payload. -/
structure Message where
  id : String
  payload : String
deriving DecidableEq

/-- Model of models.Error: code and human-readable message. -/
structure ErrorInfo where
  code : String
  message : String
deriving DecidableEq

/-- Model of models.ServerMessage, the server-to-client frame.  The ts
field is an abstract tick instead of a formatted wall-clock string. -/
structure ServerMessage where
  type : String := ""
  topic : String := ""
  message : Option Message := none
  error : Option ErrorInfo := none
  msg : String := ""
  ts : Nat := 0
deriving DecidableEq

/-- Model of pubsub.Subscriber: id, set of subscribed topic names, and
the bounded outbound channel (front of the list is the channel head). -/
structure Subscriber where
  id : String
  topics : Finset String
  sendChan : List ServerMessage
deriving DecidableEq

/-- Model of pubsub.Topic: name, ring of resident messages (oldest
first), the set of attached subscriber ids, the lifetime message
count, and the two timestamps. -/
structure Topic where
  name : String
  messages : List Message
  subscribers : Finset String
  messageCount : Nat
  createdAt : Nat
  lastMessageAt : Nat
deriving DecidableEq

/-- Model of pubsub.PubSub: the registry.  The pending field records
subscriber ids whose asynchronous removal was scheduled by the fan-out
path (the go RemoveSubscriber call). -/
structure PubSub where
  topics : String → Option Topic
  subscribers : String → Option Subscriber
  maxMessagesPerTopic : Nat
  pending : Finset String

/-- Capacity of each subscriber channel: make(chan, 100) in Subscribe. -/
def sendChanCap : Nat := 100

/-- Point update of a string-keyed map. -/
def updMap {α : Type} (m : String → Option α) (k : String) (v : Option α) :
    String → Option α :=
  fun n => if n = k then v else m n

/-- Non-blocking channel offer: a select with default succeeds exactly
when the buffer is not full, appending at the back. -/
def offer (cap : Nat) (q : List ServerMessage) (m : ServerMessage) :
    Option (List ServerMessage) :=
  if q.length < cap then some (q ++ [m]) else none

/-- The empty registry produced by NewPubSub. -/
def emptyPubSub (cap : Nat) : PubSub :=
  { topics := fun _ => none
    subscribers := fun _ => none
    maxMessagesPerTopic := cap
    pending := ∅ }

/-- CreateTopic: fail when present, otherwise insert a fresh topic with
empty ring and empty membership, CreatedAt set to now. -/
def createTopic (ps : PubSub) (name : String) (now : Nat) :
    PubSub × Option String :=
  match ps.topics name with
  | some _ => (ps, some "topic already exists")
  | none =>
    let topic : Topic :=
      { name := name
        messages := []
        subscribers := ∅
        messageCount := 0
        createdAt := now
        lastMessageAt := 0 }
    ({ ps with topics := updMap ps.topics name (some topic) }, none)

/-- The info frame sent to subscribers when a topic is deleted. -/
def infoFrameDeleted (topicName : String) (now : Nat) : ServerMessage :=
  { type := "info", topic := topicName, msg := "topic_deleted", ts := now }

/-- DeleteTopic: remove the topic; every attached subscriber is offered
a topic_deleted info frame best-effort (dropped when the channel is
full), and the topic name is removed from every subscriber's topic set
(the second loop of the Go code covers subscribers not attached). -/
def deleteTopic (ps : PubSub) (name : String) (now : Nat) :
    PubSub × Option String :=
  match ps.topics name with
  | none => (ps, some "topic does not exist")
  | some top =>
    let subs : String → Option Subscriber := fun sid =>
      (ps.subscribers sid).map fun sub =>
        if sid ∈ top.subscribers then
          { sub with
            sendChan := (offer sendChanCap sub.sendChan
              (infoFrameDeleted name now)).getD sub.sendChan
            topics := sub.topics.erase name }
        else
          { sub with topics := sub.topics.erase name }
    ({ ps with topics := updMap ps.topics name none, subscribers := subs },
      none)

/-- The event frame built for fan-out and for historical replay. -/
def eventFrame (topicName : String) (m : Message) (now : Nat) :
    ServerMessage :=
  { type := "event", topic := topicName, message := some m, ts := now }

/-- The error frame offered when a subscriber channel is full. -/
def slowConsumerFrame (now : Nat) : ServerMessage :=
  { type := "error"
    error := some { code := "SLOW_CONSUMER", message := "Subscriber queue overflow" }
    ts := now }

/-- Outcome of the per-subscriber fan-out body: the channel afterwards,
whether the error-frame offer was attempted, and whether asynchronous
removal of the subscriber was scheduled. -/
structure NotifyOutcome where
  sendChan : List ServerMessage
  errAttempted : Bool
  removalScheduled : Bool
deriving DecidableEq

/-- Per-subscriber body of notifySubscribers: offer the event frame;
on failure offer the error frame; if that fails too, schedule removal
of the subscriber. -/
def notifyOne (cap : Nat) (q : List ServerMessage)
    (event errFrame : ServerMessage) : NotifyOutcome :=
  match offer cap q event with
  | some q1 => { sendChan := q1, errAttempted := false, removalScheduled := false }
  | none =>
    match offer cap q errFrame with
    | some q1 => { sendChan := q1, errAttempted := true, removalScheduled := false }
    | none => { sendChan := q, errAttempted := true, removalScheduled := true }

/-- notifySubscribers: look the topic up again, snapshot its membership
and run the fan-out body on every attached registered subscriber;
scheduled removals are accumulated in the pending set. -/
def notifySubscribers (ps : PubSub) (topicName : String) (m : Message)
    (now : Nat) : PubSub :=
  match ps.topics topicName with
  | none => ps
  | some top =>
    let ev := eventFrame topicName m now
    let ef := slowConsumerFrame now
    let subs : String → Option Subscriber := fun sid =>
      (ps.subscribers sid).map fun sub =>
        if sid ∈ top.subscribers then
          { sub with sendChan := (notifyOne sendChanCap sub.sendChan ev ef).sendChan }
        else sub
    let sched := top.subscribers.filter fun sid =>
      ((ps.subscribers sid).map fun sub =>
        (notifyOne sendChanCap sub.sendChan ev ef).removalScheduled).getD false = true
    { ps with subscribers := subs, pending := ps.pending ∪ sched }

/-- Ring update of PublishMessage: append, then drop the oldest message
when the length exceeds MaxMessagesPerTopic. -/
def ringAppend (cap : Nat) (msgs : List Message) (m : Message) :
    List Message :=
  let grown := msgs ++ [m]
  if cap < grown.length then grown.drop 1 else grown

/-- PublishMessage: TOPIC_NOT_FOUND on unknown topic; otherwise update
the ring, bump MessageCount, set LastMessageAt and fan out. -/
def publishMessage (ps : PubSub) (topicName : String) (m : Message)
    (now : Nat) : PubSub × Option String :=
  match ps.topics topicName with
  | none => (ps, some "TOPIC_NOT_FOUND")
  | some top =>
    let top1 : Topic :=
      { top with
        messages := ringAppend ps.maxMessagesPerTopic top.messages m
        messageCount := top.messageCount + 1
        lastMessageAt := now }
    let ps1 := { ps with topics := updMap ps.topics topicName (some top1) }
    (notifySubscribers ps1 topicName m now, none)

/-- Offer a list of frames in order, stopping silently at the first
offer that fails (the early return of sendHistoricalMessages). -/
def offerAll (cap : Nat) (q : List ServerMessage)
    (frames : List ServerMessage) : List ServerMessage :=
  match frames with
  | [] => q
  | f :: rest =>
    match offer cap q f with
    | some q1 => offerAll cap q1 rest
    | none => q

/-- The frames sent by historical replay: the last lastN ring messages,
newest first (the loop walks indices len-1 down to max(len-lastN,0)). -/
def replayFrames (topicName : String) (msgs : List Message) (lastN : Nat)
    (now : Nat) : List ServerMessage :=
  ((msgs.drop (msgs.length - lastN)).reverse).map fun m =>
    eventFrame topicName m now

/-- sendHistoricalMessages: snapshot the ring and offer the replay
frames to the subscriber, stopping at the first full-channel failure. -/
def sendHistoricalMessages (sub : Subscriber) (top : Topic) (lastN : Nat)
    (now : Nat) : Subscriber :=
  { sub with
    sendChan := offerAll sendChanCap sub.sendChan
      (replayFrames top.name top.messages lastN now) }

/-- Subscribe: TOPIC_NOT_FOUND on unknown topic; otherwise get or
create the subscriber, add the topic to its set, add its id to the
topic's membership, and replay history when lastN is positive. -/
def subscribe (ps : PubSub) (subscriberID topicName : String)
    (lastN : Int) (now : Nat) : PubSub × Option String :=
  match ps.topics topicName with
  | none => (ps, some "TOPIC_NOT_FOUND")
  | some top =>
    let sub0 : Subscriber :=
      match ps.subscribers subscriberID with
      | some s => s
      | none => { id := subscriberID, topics := ∅, sendChan := [] }
    let sub1 := { sub0 with topics := insert topicName sub0.topics }
    let top1 := { top with subscribers := insert subscriberID top.subscribers }
    let sub2 :=
      if 0 < lastN then sendHistoricalMessages sub1 top1 lastN.toNat now
      else sub1
    ({ ps with
        subscribers := updMap ps.subscribers subscriberID (some sub2)
        topics := updMap ps.topics topicName (some top1) }, none)

/-- Unsubscribe: TOPIC_NOT_FOUND on unknown topic; otherwise erase the
subscriber id from the topic and, when the subscriber is registered,
erase the topic name from its set.  Absence is tolerated. -/
def unsubscribe (ps : PubSub) (subscriberID topicName : String) :
    PubSub × Option String :=
  match ps.topics topicName with
  | none => (ps, some "TOPIC_NOT_FOUND")
  | some top =>
    let top1 := { top with subscribers := top.subscribers.erase subscriberID }
    let ps1 := { ps with topics := updMap ps.topics topicName (some top1) }
    match ps.subscribers subscriberID with
    | none => (ps1, none)
    | some sub =>
      let sub1 := { sub with topics := sub.topics.erase topicName }
      ({ ps1 with
          subscribers := updMap ps1.subscribers subscriberID (some sub1) },
        none)

/-- RemoveSubscriber: detach the subscriber from every topic in its set
and delete it from the registry; a no-op for unknown ids. -/
def removeSubscriber (ps : PubSub) (subscriberID : String) : PubSub :=
  match ps.subscribers subscriberID with
  | none => ps
  | some sub =>
    let tops : String → Option Topic := fun n =>
      (ps.topics n).map fun top =>
        if n ∈ sub.topics then
          { top with subscribers := top.subscribers.erase subscriberID }
        else top
    { ps with
        topics := tops
        subscribers := updMap ps.subscribers subscriberID none }

/-- Per-topic entry of the stats report (messages and subscribers). -/
structure OrdersStats where
  messages : Nat
  subscribers : Nat
deriving DecidableEq

/-- The topics section of models.Stats as used by pubsub.GetStats: a
struct with a single hard-coded field for the orders topic. -/
structure StatsTopics where
  orders : OrdersStats
deriving DecidableEq

/-- The stats report returned by GetStats. -/
structure Stats where
  topics : StatsTopics
deriving DecidableEq

/-- GetStats: reports the hard-coded orders topic when present,
otherwise the zero value of the stats struct. -/
def getStats (ps : PubSub) : Stats :=
  match ps.topics "orders" with
  | some t =>
    { topics :=
        { orders := { messages := t.messageCount, subscribers := t.subscribers.card } } }
  | none => { topics := { orders := { messages := 0, subscribers := 0 } } }

/-- Mapping view of the serialized stats object: the JSON rendering of
Stats has exactly one key (orders) under topics, so looking up any
other topic name yields no entry. -/
def statsTopicLookup (s : Stats) (name : String) : Option OrdersStats :=
  if name = "orders" then some s.topics.orders else none

/-- Fold of PublishMessage over a sequence of message-timestamp pairs,
keeping the state of each call. -/
def publishSeq (ps : PubSub) (topicName : String)
    (es : List (Message × Nat)) : PubSub :=
  List.foldl (fun s e => (publishMessage s topicName e.1 e.2).1) ps es

/-- States reachable from the empty registry by the five membership
operations (CreateTopic, DeleteTopic, Subscribe, Unsubscribe,
RemoveSubscriber). -/
inductive Reachable : PubSub → Prop where
  | init (cap : Nat) : Reachable (emptyPubSub cap)
  | create (ps : PubSub) (name : String) (now : Nat) :
      Reachable ps → Reachable (createTopic ps name now).1
  | delete (ps : PubSub) (name : String) (now : Nat) :
      Reachable ps → Reachable (deleteTopic ps name now).1
  | sub (ps : PubSub) (sid t : String) (lastN : Int) (now : Nat) :
      Reachable ps → Reachable (subscribe ps sid t lastN now).1
  | unsub (ps : PubSub) (sid t : String) :
      Reachable ps → Reachable (unsubscribe ps sid t).1
  | remove (ps : PubSub) (sid : String) :
      Reachable ps → Reachable (removeSubscriber ps sid)

/-- The two-way membership invariant of claim C8. -/
def MembershipInv (ps : PubSub) : Prop :=
  ∀ sid sub, ps.subscribers sid = some sub →
    ∀ tn top, ps.topics tn = some top →
      (sid ∈ top.subscribers ↔ tn ∈ sub.topics)

/-- Every topic name held by a registered subscriber names a topic that
exists in the registry. -/
def TopicsClosed (ps : PubSub) : Prop :=
  ∀ sid sub, ps.subscribers sid = some sub →
    ∀ tn, tn ∈ sub.topics → ∃ top, ps.topics tn = some top

/-- Every subscriber id attached to a topic is registered. -/
def SubsClosed (ps : PubSub) : Prop :=
  ∀ tn top, ps.topics tn = some top →
    ∀ sid, sid ∈ top.subscribers → ∃ sub, ps.subscribers sid = some sub

/-- The inductive strengthening used to prove the membership invariant. -/
def StrongInv (ps : PubSub) : Prop :=
  MembershipInv ps ∧ TopicsClosed ps ∧ SubsClosed ps

/-- A sample topic used to evaluate the operations on concrete states. -/
def topicA : Topic :=
  { name := "a", messages := [], subscribers := ∅, messageCount := 0,
    createdAt := 0, lastMessageAt := 0 }

/-- A registry holding exactly the sample topic a and no subscribers. -/
def stateA : PubSub :=
  { topics := updMap (fun _ => none) "a" (some topicA)
    subscribers := fun _ => none
    maxMessagesPerTopic := 10
    pending := ∅ }

/-- A sample topic named news with a nonzero lifetime message count. -/
def newsTopic : Topic :=
  { name := "news", messages := [], subscribers := ∅, messageCount := 5,
    createdAt := 0, lastMessageAt := 0 }

/-- A registry holding exactly the news topic. -/
def newsState : PubSub :=
  { topics := updMap (fun _ => none) "news" (some newsTopic)
    subscribers := fun _ => none
    maxMessagesPerTopic := 10
    pending := ∅ }

/-- A sample topic named orders. -/
def ordersTopic0 : Topic :=
  { name := "orders", messages := [], subscribers := ∅, messageCount := 0,
    createdAt := 0, lastMessageAt := 0 }

/-- A registry holding exactly the orders topic. -/
def ordersState : PubSub :=
  { topics := updMap (fun _ => none) "orders" (some ordersTopic0)
    subscribers := fun _ => none
    maxMessagesPerTopic := 10
    pending := ∅ }

theorem updMap_self {α : Type} (m : String → Option α) (k : String)
    (v : Option α) : updMap m k v k = v := by
  simp [updMap]

theorem updMap_ne {α : Type} (m : String → Option α) (k n : String)
    (v : Option α) (h : n ≠ k) : updMap m k v n = m n := by
  simp [updMap, h]

/-- C5: publishing to or subscribing on an unknown topic name returns
the TOPIC_NOT_FOUND error and leaves the whole registry state (topics,
subscribers, capacity, pending removals) unchanged. -/
theorem publish_subscribe_unknown_topic (ps : PubSub) (sid name : String)
    (m : Message) (lastN : Int) (now : Nat) (h : ps.topics name = none) :
    publishMessage ps name m now = (ps, some "TOPIC_NOT_FOUND") ∧
    subscribe ps sid name lastN now = (ps, some "TOPIC_NOT_FOUND") := by
  constructor
  · simp [publishMessage, h]
  · simp [subscribe, h]

/-- Witness for C5 at the empty registry. -/
theorem publish_subscribe_unknown_topic_witness :
    publishMessage (emptyPubSub 10) "nope" { id := "m1", payload := "p" } 0 =
      (emptyPubSub 10, some "TOPIC_NOT_FOUND") ∧
    subscribe (emptyPubSub 10) "s1" "nope" 0 0 =
      (emptyPubSub 10, some "TOPIC_NOT_FOUND") :=
  publish_subscribe_unknown_topic (emptyPubSub 10) "s1" "nope"
    { id := "m1", payload := "p" } 0 0 rfl

/-- C1 counterexample: a registry holding a topic named news with
lifetime message count 5 for which the stats report contains no entry
keyed news, refuting the claim that every topic is reported. -/
theorem getStats_misses_news :
    newsState.topics "news" = some newsTopic ∧
    newsTopic.messageCount = 5 ∧
    statsTopicLookup (getStats newsState) "news" = none := by
  refine ⟨rfl, rfl, ?_⟩
  decide

/-- C1 (amended): GetStats reports only the hard-coded orders topic.
When a topic named orders exists its entry carries its MessageCount
and subscriber count; when it does not, the entry carries zeros; no
other topic name has an entry. -/
theorem getStats_orders_only (ps : PubSub) :
    (∀ t, ps.topics "orders" = some t →
       statsTopicLookup (getStats ps) "orders" =
         some { messages := t.messageCount, subscribers := t.subscribers.card }) ∧
    (ps.topics "orders" = none →
       statsTopicLookup (getStats ps) "orders" =
         some { messages := 0, subscribers := 0 }) ∧
    (∀ n, n ≠ "orders" → statsTopicLookup (getStats ps) n = none) := by
  refine ⟨?_, ?_, ?_⟩
  · intro t ht
    simp [getStats, statsTopicLookup, ht]
  · intro h
    simp [getStats, statsTopicLookup, h]
  · intro n hn
    simp [statsTopicLookup, hn]

/-- Witness for C1 at a registry holding the orders topic. -/
theorem getStats_orders_only_witness :
    statsTopicLookup (getStats ordersState) "orders" =
      some { messages := ordersTopic0.messageCount,
             subscribers := ordersTopic0.subscribers.card } :=
  (getStats_orders_only ordersState).1 ordersTopic0 rfl

/-- C6 counterexample: creating a duplicate topic fails with the error
message "topic already exists", not with the TOPIC_EXISTS error value
defined in the models package. -/
theorem createTopic_error_not_TOPIC_EXISTS :
    stateA.topics "a" = some topicA ∧
    (createTopic stateA "a" 0).2 = some "topic already exists" ∧
    (createTopic stateA "a" 0).2 ≠ some "TOPIC_EXISTS" := by
  refine ⟨rfl, ?_, ?_⟩ <;> decide

/-- C6 (amended): when a topic with the given name exists, CreateTopic
fails with the duplicate-topic error (message "topic already exists")
and returns the registry completely unchanged, existing topic
included; when no such topic exists it succeeds and inserts a fresh
entry under that name, leaving everything else unchanged. -/
theorem createTopic_spec (ps : PubSub) (name : String) (now : Nat) :
    (∀ top, ps.topics name = some top →
       createTopic ps name now = (ps, some "topic already exists")) ∧
    (ps.topics name = none →
       (createTopic ps name now).2 = none ∧
       (createTopic ps name now).1.topics name =
         some { name := name, messages := [], subscribers := ∅,
                messageCount := 0, createdAt := now, lastMessageAt := 0 } ∧
       (∀ n, n ≠ name → (createTopic ps name now).1.topics n = ps.topics n) ∧
       (createTopic ps name now).1.subscribers = ps.subscribers ∧
       (createTopic ps name now).1.maxMessagesPerTopic = ps.maxMessagesPerTopic ∧
       (createTopic ps name now).1.pending = ps.pending) := by
  constructor
  · intro top htop
    simp [createTopic, htop]
  · intro h
    simp [createTopic, h, updMap_self]
    intro n hn
    exact updMap_ne _ _ _ _ hn

/-- Witness for C6 at a registry already holding the topic. -/
theorem createTopic_spec_witness :
    createTopic stateA "a" 0 = (stateA, some "topic already exists") :=
  (createTopic_spec stateA "a" 0).1 topicA rfl

/-- C10: subscribing with a non-positive lastN (zero or negative) on an
existing topic succeeds, attaches the subscriber on both sides of the
membership, and enqueues no historical frames: the channel is exactly
what it was (empty for a freshly created subscriber). -/
theorem subscribe_nonpositive_lastN (ps : PubSub) (sid t : String)
    (lastN : Int) (now : Nat) (top : Topic)
    (htop : ps.topics t = some top) (hk : lastN ≤ 0) :
    (subscribe ps sid t lastN now).2 = none ∧
    (∃ top1, (subscribe ps sid t lastN now).1.topics t = some top1 ∧
       top1.subscribers = insert sid top.subscribers) ∧
    (∃ sub2, (subscribe ps sid t lastN now).1.subscribers sid = some sub2 ∧
       t ∈ sub2.topics ∧
       sub2.sendChan = ((ps.subscribers sid).map Subscriber.sendChan).getD []) := by
  have hnot : ¬ 0 < lastN := not_lt.mpr hk
  cases hsub : ps.subscribers sid <;>
    simp [subscribe, htop, hnot, hsub, updMap_self]

/-- Witness for C10 with a negative lastN at the sample registry. -/
theorem subscribe_nonpositive_lastN_witness :
    (subscribe stateA "s1" "a" (-3) 0).2 = none ∧
    (∃ top1, (subscribe stateA "s1" "a" (-3) 0).1.topics "a" = some top1 ∧
       top1.subscribers = insert "s1" topicA.subscribers) ∧
    (∃ sub2, (subscribe stateA "s1" "a" (-3) 0).1.subscribers "s1" = some sub2 ∧
       "a" ∈ sub2.topics ∧
       sub2.sendChan = ((stateA.subscribers "s1").map Subscriber.sendChan).getD []) :=
  subscribe_nonpositive_lastN stateA "s1" "a" (-3) 0 topicA rfl (by decide)

theorem ringAppend_length_le (cap : Nat) (msgs : List Message) (m : Message)
    (h : msgs.length ≤ cap) : (ringAppend cap msgs m).length ≤ cap := by
  by_cases hc : cap < (msgs ++ [m]).length
  · simp only [ringAppend, if_pos hc]
    simp at hc ⊢
    omega
  · simp only [ringAppend, if_neg hc]
    simp at hc ⊢
    omega

theorem foldl_ringAppend (cap : Nat) :
    ∀ (msgs ring : List Message), ring.length ≤ cap →
      List.foldl (ringAppend cap) ring msgs =
        (ring ++ msgs).drop (ring.length + msgs.length - cap) := by
  intro msgs
  induction msgs with
  | nil =>
    intro ring h
    simp [Nat.sub_eq_zero_of_le h]
  | cons m rest ih =>
    intro ring h
    rw [List.foldl_cons]
    by_cases hc : cap < (ring ++ [m]).length
    · have hL : ring.length = cap := by
        simp at hc
        omega
      have hr : ringAppend cap ring m = (ring ++ [m]).drop 1 := by
        simp only [ringAppend, if_pos hc]
      rw [hr, ih _ (by simp [hL])]
      have hdrop1 : (ring ++ m :: rest).drop 1 = (ring ++ [m]).drop 1 ++ rest := by
        have : ring ++ m :: rest = (ring ++ [m]) ++ rest := by simp
        rw [this, List.drop_append_of_le_length (by simp)]
      have hlen : ((ring ++ [m]).drop 1).length = cap := by
        simp [hL]
      calc ((ring ++ [m]).drop 1 ++ rest).drop
            (((ring ++ [m]).drop 1).length + rest.length - cap)
          = ((ring ++ [m]).drop 1 ++ rest).drop rest.length := by
            rw [hlen]
            congr 1
            omega
        _ = ((ring ++ m :: rest).drop 1).drop rest.length := by rw [hdrop1]
        _ = (ring ++ m :: rest).drop (rest.length + 1) := by
            rw [List.drop_drop]
            congr 1
            omega
        _ = (ring ++ m :: rest).drop (ring.length + (m :: rest).length - cap) := by
            congr 1
            simp [hL]
    · have hr : ringAppend cap ring m = ring ++ [m] := by
        simp only [ringAppend, if_neg hc]
      simp at hc
      rw [hr, ih _ (by simp; omega)]
      have : (ring ++ [m]) ++ rest = ring ++ m :: rest := by simp
      rw [this]
      congr 1
      simp
      omega

theorem notifySubscribers_topics (ps : PubSub) (t : String) (m : Message)
    (now : Nat) :
    (notifySubscribers ps t m now).topics = ps.topics ∧
    (notifySubscribers ps t m now).maxMessagesPerTopic =
      ps.maxMessagesPerTopic := by
  cases h : ps.topics t <;> simp [notifySubscribers, h]

theorem publishMessage_some (ps : PubSub) (t : String) (m : Message)
    (now : Nat) (top : Topic) (h : ps.topics t = some top) :
    (publishMessage ps t m now).2 = none ∧
    (publishMessage ps t m now).1.maxMessagesPerTopic =
      ps.maxMessagesPerTopic ∧
    (publishMessage ps t m now).1.topics t =
      some { top with
              messages := ringAppend ps.maxMessagesPerTopic top.messages m
              messageCount := top.messageCount + 1
              lastMessageAt := now } := by
  refine ⟨?_, ?_, ?_⟩
  · simp [publishMessage, h]
  · simp only [publishMessage, h]
    exact (notifySubscribers_topics _ t m now).2
  · simp only [publishMessage, h]
    rw [(notifySubscribers_topics _ t m now).1]
    exact updMap_self _ _ _

theorem publishSeq_messages (t : String) :
    ∀ (es : List (Message × Nat)) (ps : PubSub) (top : Topic),
      ps.topics t = some top →
      ∃ top1, (publishSeq ps t es).topics t = some top1 ∧
        top1.messages =
          List.foldl (ringAppend ps.maxMessagesPerTopic) top.messages
            (es.map Prod.fst) ∧
        top1.messageCount = top.messageCount + es.length := by
  intro es
  induction es with
  | nil =>
    intro ps top h
    exact ⟨top, h, rfl, by simp⟩
  | cons e rest ih =>
    intro ps top h
    obtain ⟨-, hcap, htop⟩ := publishMessage_some ps t e.1 e.2 top h
    obtain ⟨top1, h1, h2, h3⟩ := ih (publishMessage ps t e.1 e.2).1 _ htop
    refine ⟨top1, ?_, ?_, ?_⟩
    · simpa [publishSeq] using h1
    · simpa [hcap] using h2
    · simp [h3]
      omega

/-- C2: for a topic starting from creation (empty ring), after any
sequence of publications the resident ring is exactly the suffix of the
published sequence of length min(MaxMessagesPerTopic, publications), in
publication order, and MessageCount counts every publication. -/
theorem publish_ring_is_suffix (ps : PubSub) (t : String) (top : Topic)
    (es : List (Message × Nat)) (h : ps.topics t = some top)
    (h0 : top.messages = []) :
    ∃ top1, (publishSeq ps t es).topics t = some top1 ∧
      top1.messages =
        (es.map Prod.fst).drop (es.length - ps.maxMessagesPerTopic) ∧
      top1.messages.length = min ps.maxMessagesPerTopic es.length ∧
      top1.messageCount = top.messageCount + es.length := by
  obtain ⟨top1, h1, h2, h3⟩ := publishSeq_messages t es ps top h
  rw [h0] at h2
  rw [foldl_ringAppend ps.maxMessagesPerTopic (es.map Prod.fst) []
    (by simp)] at h2
  simp at h2
  refine ⟨top1, h1, ?_, ?_, h3⟩
  · rw [h2]
  · rw [h2]
    simp
    omega

/-- Witness for C2: three publications into a topic of capacity two
leave the last two messages resident. -/
theorem publish_ring_is_suffix_witness :
    ∃ top1,
      (publishSeq { stateA with maxMessagesPerTopic := 2 } "a"
          [({ id := "m1", payload := "" }, 0), ({ id := "m2", payload := "" }, 1),
           ({ id := "m3", payload := "" }, 2)]).topics "a" = some top1 ∧
      top1.messages =
        ([({ id := "m1", payload := "" }, (0 : Nat)), ({ id := "m2", payload := "" }, 1),
          ({ id := "m3", payload := "" }, 2)].map Prod.fst).drop
          (3 - ({ stateA with maxMessagesPerTopic := 2 } : PubSub).maxMessagesPerTopic) ∧
      top1.messages.length =
        min ({ stateA with maxMessagesPerTopic := 2 } : PubSub).maxMessagesPerTopic 3 ∧
      top1.messageCount = topicA.messageCount + 3 :=
  publish_ring_is_suffix { stateA with maxMessagesPerTopic := 2 } "a" topicA
    [({ id := "m1", payload := "" }, 0), ({ id := "m2", payload := "" }, 1),
     ({ id := "m3", payload := "" }, 2)] rfl rfl

theorem offerAll_fits (cap : Nat) :
    ∀ (frames : List ServerMessage) (q : List ServerMessage),
      q.length + frames.length ≤ cap → offerAll cap q frames = q ++ frames := by
  intro frames
  induction frames with
  | nil => intro q h; simp [offerAll]
  | cons f rest ih =>
    intro q h
    simp only [List.length_cons] at h
    have hq : q.length < cap := by omega
    simp only [offerAll, offer, if_pos hq]
    rw [ih (q ++ [f]) (by simp; omega)]
    simp

theorem offerAll_take (cap : Nat) :
    ∀ (frames : List ServerMessage) (q : List ServerMessage),
      ∃ n, n ≤ frames.length ∧ offerAll cap q frames = q ++ frames.take n := by
  intro frames
  induction frames with
  | nil => intro q; exact ⟨0, by simp [offerAll]⟩
  | cons f rest ih =>
    intro q
    by_cases hq : q.length < cap
    · obtain ⟨n, hn, he⟩ := ih (q ++ [f])
      refine ⟨n + 1, by simp; omega, ?_⟩
      simp only [offerAll, offer, if_pos hq]
      rw [he]
      simp
    · refine ⟨0, by simp, ?_⟩
      simp only [offerAll, offer, if_neg hq]
      simp

theorem replayFrames_length (t : String) (msgs : List Message) (k now : Nat) :
    (replayFrames t msgs k now).length = min k msgs.length := by
  simp [replayFrames]
  omega

theorem replayFrames_getElem (t : String) (msgs : List Message)
    (k now i : Nat) (hi : i < min k msgs.length) :
    (replayFrames t msgs k now)[i]? =
      (msgs[msgs.length - 1 - i]?).map (fun m => eventFrame t m now) := by
  have hlen : i < (msgs.drop (msgs.length - k)).length := by
    simp
    omega
  simp only [replayFrames, List.getElem?_map]
  rw [List.getElem?_reverse (by simpa using hlen), List.getElem?_drop]
  congr 2
  simp
  omega

/-- C3: subscribing with positive lastN = k on a topic whose ring
holds messages, when every offer fits in the channel, appends exactly
min(k, ring length) event frames to the subscriber channel, the i-th
appended frame carrying the i-th newest ring message (descending
publication order); and replay in general only ever appends a prefix
of those event frames, stopping silently at the first full-channel
failure with no slow-consumer frame. -/
theorem subscribe_replay (ps : PubSub) (sid t : String) (top : Topic)
    (sub : Subscriber) (k : Int) (now : Nat)
    (htop : ps.topics t = some top) (hsub : ps.subscribers sid = some sub)
    (hk : 0 < k)
    (hfit : sub.sendChan.length + min k.toNat top.messages.length ≤ sendChanCap) :
    (∃ sub2, (subscribe ps sid t k now).1.subscribers sid = some sub2 ∧
       sub2.sendChan.length =
         sub.sendChan.length + min k.toNat top.messages.length ∧
       (∀ i, i < min k.toNat top.messages.length →
         sub2.sendChan[sub.sendChan.length + i]? =
           (top.messages[top.messages.length - 1 - i]?).map
             (fun m => eventFrame top.name m now))) ∧
    (∀ (q frames : List ServerMessage),
       ∃ n, n ≤ frames.length ∧
         offerAll sendChanCap q frames = q ++ frames.take n) := by
  refine ⟨?_, fun q frames => offerAll_take sendChanCap frames q⟩
  refine ⟨sendHistoricalMessages
    { sub with topics := insert t sub.topics }
    { top with subscribers := insert sid top.subscribers } k.toNat now, ?_, ?_, ?_⟩
  · simp only [subscribe, htop, hsub, if_pos hk]
    exact updMap_self _ _ _
  · simp only [sendHistoricalMessages]
    rw [offerAll_fits sendChanCap _ _ (by simpa [replayFrames_length] using hfit)]
    simp [replayFrames_length]
  · intro i hi
    simp only [sendHistoricalMessages]
    rw [offerAll_fits sendChanCap _ _ (by simpa [replayFrames_length] using hfit)]
    rw [List.getElem?_append_right (by omega)]
    simp only [Nat.add_sub_cancel_left]
    exact replayFrames_getElem top.name top.messages k.toNat now i hi

/-- Three sample messages for concrete replay evaluation. -/
def sampleM1 : Message := { id := "m1", payload := "" }

/-- Second sample message. -/
def sampleM2 : Message := { id := "m2", payload := "" }

/-- Third sample message. -/
def sampleM3 : Message := { id := "m3", payload := "" }

/-- A registered subscriber with an empty channel. -/
def subS1 : Subscriber := { id := "s1", topics := ∅, sendChan := [] }

/-- A registry with one topic holding three ring messages and one
registered subscriber. -/
def replayState : PubSub :=
  { topics := updMap (fun _ => none) "a"
      (some { topicA with messages := [sampleM1, sampleM2, sampleM3] })
    subscribers := updMap (fun _ => none) "s1" (some subS1)
    maxMessagesPerTopic := 10
    pending := ∅ }

/-- Witness for C3: subscribing with lastN 2 on a three-message ring. -/
theorem subscribe_replay_witness :
    (∃ sub2, (subscribe replayState "s1" "a" 2 7).1.subscribers "s1" = some sub2 ∧
       sub2.sendChan.length =
         subS1.sendChan.length +
           min (2 : Int).toNat
             ({ topicA with messages := [sampleM1, sampleM2, sampleM3] } : Topic).messages.length ∧
       (∀ i, i < min (2 : Int).toNat
             ({ topicA with messages := [sampleM1, sampleM2, sampleM3] } : Topic).messages.length →
         sub2.sendChan[subS1.sendChan.length + i]? =
           (({ topicA with messages := [sampleM1, sampleM2, sampleM3] } : Topic).messages[
             ({ topicA with messages := [sampleM1, sampleM2, sampleM3] } : Topic).messages.length - 1 - i]?).map
             (fun m => eventFrame ({ topicA with messages := [sampleM1, sampleM2, sampleM3] } : Topic).name m 7))) ∧
    (∀ (q frames : List ServerMessage),
       ∃ n, n ≤ frames.length ∧
         offerAll sendChanCap q frames = q ++ frames.take n) :=
  subscribe_replay replayState "s1" "a"
    { topicA with messages := [sampleM1, sampleM2, sampleM3] } subS1 2 7
    rfl rfl (by decide) (by decide)

theorem notifySubscribers_sub_mem (ps : PubSub) (t : String) (top : Topic)
    (m : Message) (now : Nat) (sid : String) (sub : Subscriber)
    (htop : ps.topics t = some top) (hsub : ps.subscribers sid = some sub)
    (hmem : sid ∈ top.subscribers) :
    (notifySubscribers ps t m now).subscribers sid =
      some { sub with
              sendChan := (notifyOne sendChanCap sub.sendChan
                (eventFrame t m now) (slowConsumerFrame now)).sendChan } := by
  simp [notifySubscribers, htop, hsub, hmem]

theorem notifySubscribers_pending (ps : PubSub) (t : String) (top : Topic)
    (m : Message) (now : Nat) (sid : String) (sub : Subscriber)
    (htop : ps.topics t = some top) (hsub : ps.subscribers sid = some sub)
    (hmem : sid ∈ top.subscribers) :
    (sid ∈ (notifySubscribers ps t m now).pending ↔
      (sid ∈ ps.pending ∨
        (notifyOne sendChanCap sub.sendChan (eventFrame t m now)
          (slowConsumerFrame now)).removalScheduled = true)) := by
  simp [notifySubscribers, htop, hsub, hmem, Finset.mem_union,
    Finset.mem_filter]

/-- C4: for an attached subscriber in the fan-out of a publication, if
the non-blocking offer of the event frame fails, the fan-out attempts
an offer of an error frame carrying code SLOW_CONSUMER on the same
channel; if that offer also fails, removal of the subscriber is
scheduled asynchronously (recorded in the pending set) and the channel
is untouched; if the error offer succeeds no removal is scheduled; and
if the first offer succeeds, no error frame is attempted, no removal is
scheduled and the event frame is simply enqueued. -/
theorem notify_slow_consumer (ps : PubSub) (t : String) (top : Topic)
    (m : Message) (now : Nat) (sid : String) (sub : Subscriber)
    (htop : ps.topics t = some top) (hsub : ps.subscribers sid = some sub)
    (hmem : sid ∈ top.subscribers) :
    (notifySubscribers ps t m now).subscribers sid =
      some { sub with
              sendChan := (notifyOne sendChanCap sub.sendChan
                (eventFrame t m now) (slowConsumerFrame now)).sendChan } ∧
    (offer sendChanCap sub.sendChan (eventFrame t m now) = none →
       (notifyOne sendChanCap sub.sendChan (eventFrame t m now)
         (slowConsumerFrame now)).errAttempted = true ∧
       (slowConsumerFrame now).error =
         some { code := "SLOW_CONSUMER", message := "Subscriber queue overflow" } ∧
       (offer sendChanCap sub.sendChan (slowConsumerFrame now) = none →
          (notifyOne sendChanCap sub.sendChan (eventFrame t m now)
            (slowConsumerFrame now)).removalScheduled = true ∧
          (notifyOne sendChanCap sub.sendChan (eventFrame t m now)
            (slowConsumerFrame now)).sendChan = sub.sendChan ∧
          sid ∈ (notifySubscribers ps t m now).pending) ∧
       (∀ q1, offer sendChanCap sub.sendChan (slowConsumerFrame now) = some q1 →
          (notifyOne sendChanCap sub.sendChan (eventFrame t m now)
            (slowConsumerFrame now)).removalScheduled = false ∧
          (notifyOne sendChanCap sub.sendChan (eventFrame t m now)
            (slowConsumerFrame now)).sendChan = q1)) ∧
    (∀ q1, offer sendChanCap sub.sendChan (eventFrame t m now) = some q1 →
       (notifyOne sendChanCap sub.sendChan (eventFrame t m now)
         (slowConsumerFrame now)).sendChan = q1 ∧
       (notifyOne sendChanCap sub.sendChan (eventFrame t m now)
         (slowConsumerFrame now)).errAttempted = false ∧
       (notifyOne sendChanCap sub.sendChan (eventFrame t m now)
         (slowConsumerFrame now)).removalScheduled = false ∧
       (sid ∈ (notifySubscribers ps t m now).pending ↔ sid ∈ ps.pending)) := by
  have hp := notifySubscribers_pending ps t top m now sid sub htop hsub hmem
  refine ⟨notifySubscribers_sub_mem ps t top m now sid sub htop hsub hmem,
    ?_, ?_⟩
  · intro hoffer
    refine ⟨?_, rfl, ?_, ?_⟩
    · cases hoffer2 : offer sendChanCap sub.sendChan (slowConsumerFrame now) <;>
        simp [notifyOne, hoffer, hoffer2]
    · intro hoffer2
      refine ⟨?_, ?_, ?_⟩
      · simp [notifyOne, hoffer, hoffer2]
      · simp [notifyOne, hoffer, hoffer2]
      · rw [hp]
        right
        simp [notifyOne, hoffer, hoffer2]
    · intro q1 hoffer2
      constructor <;> simp [notifyOne, hoffer, hoffer2]
  · intro q1 hoffer
    refine ⟨?_, ?_, ?_, ?_⟩
    · simp [notifyOne, hoffer]
    · simp [notifyOne, hoffer]
    · simp [notifyOne, hoffer]
    · rw [hp]
      simp [notifyOne, hoffer]

/-- A registry with topic a having subscriber s1 attached, used to
evaluate the fan-out path on a concrete state. -/
def fanoutState : PubSub :=
  { topics := updMap (fun _ => none) "a"
      (some { topicA with subscribers := {"s1"} })
    subscribers := updMap (fun _ => none) "s1" (some subS1)
    maxMessagesPerTopic := 10
    pending := ∅ }

/-- Witness for C4 at a concrete attached subscriber. -/
theorem notify_slow_consumer_witness :
    (notifySubscribers fanoutState "a" sampleM1 3).subscribers "s1" =
      some { subS1 with
              sendChan := (notifyOne sendChanCap subS1.sendChan
                (eventFrame "a" sampleM1 3) (slowConsumerFrame 3)).sendChan } ∧
    (offer sendChanCap subS1.sendChan (eventFrame "a" sampleM1 3) = none →
       (notifyOne sendChanCap subS1.sendChan (eventFrame "a" sampleM1 3)
         (slowConsumerFrame 3)).errAttempted = true ∧
       (slowConsumerFrame 3).error =
         some { code := "SLOW_CONSUMER", message := "Subscriber queue overflow" } ∧
       (offer sendChanCap subS1.sendChan (slowConsumerFrame 3) = none →
          (notifyOne sendChanCap subS1.sendChan (eventFrame "a" sampleM1 3)
            (slowConsumerFrame 3)).removalScheduled = true ∧
          (notifyOne sendChanCap subS1.sendChan (eventFrame "a" sampleM1 3)
            (slowConsumerFrame 3)).sendChan = subS1.sendChan ∧
          "s1" ∈ (notifySubscribers fanoutState "a" sampleM1 3).pending) ∧
       (∀ q1, offer sendChanCap subS1.sendChan (slowConsumerFrame 3) = some q1 →
          (notifyOne sendChanCap subS1.sendChan (eventFrame "a" sampleM1 3)
            (slowConsumerFrame 3)).removalScheduled = false ∧
          (notifyOne sendChanCap subS1.sendChan (eventFrame "a" sampleM1 3)
            (slowConsumerFrame 3)).sendChan = q1)) ∧
    (∀ q1, offer sendChanCap subS1.sendChan (eventFrame "a" sampleM1 3) = some q1 →
       (notifyOne sendChanCap subS1.sendChan (eventFrame "a" sampleM1 3)
         (slowConsumerFrame 3)).sendChan = q1 ∧
       (notifyOne sendChanCap subS1.sendChan (eventFrame "a" sampleM1 3)
         (slowConsumerFrame 3)).errAttempted = false ∧
       (notifyOne sendChanCap subS1.sendChan (eventFrame "a" sampleM1 3)
         (slowConsumerFrame 3)).removalScheduled = false ∧
       ("s1" ∈ (notifySubscribers fanoutState "a" sampleM1 3).pending ↔
         "s1" ∈ fanoutState.pending)) :=
  notify_slow_consumer fanoutState "a" { topicA with subscribers := {"s1"} }
    sampleM1 3 "s1" subS1 rfl rfl (by decide)

/-- C7: deleting an existing topic removes it from the registry; every
attached registered subscriber receives a topic_deleted info frame
exactly when its channel has space (the frame is dropped silently
otherwise) and loses the topic name from its topic set in every case;
unattached subscribers also lose the name (defensive second loop), so
afterwards no subscriber's topic set contains the deleted name. -/
theorem deleteTopic_spec (ps : PubSub) (name : String) (now : Nat)
    (top : Topic) (h : ps.topics name = some top) :
    (deleteTopic ps name now).2 = none ∧
    (deleteTopic ps name now).1.topics name = none ∧
    (∀ sid sub, ps.subscribers sid = some sub →
      ∃ sub1, (deleteTopic ps name now).1.subscribers sid = some sub1 ∧
        name ∉ sub1.topics ∧ sub1.topics = sub.topics.erase name ∧
        (sid ∈ top.subscribers →
          (sub.sendChan.length < sendChanCap →
            sub1.sendChan = sub.sendChan ++ [infoFrameDeleted name now]) ∧
          (sendChanCap ≤ sub.sendChan.length → sub1.sendChan = sub.sendChan)) ∧
        (sid ∉ top.subscribers → sub1.sendChan = sub.sendChan)) ∧
    (∀ sid, ps.subscribers sid = none →
      (deleteTopic ps name now).1.subscribers sid = none) := by
  refine ⟨?_, ?_, ?_, ?_⟩
  · simp [deleteTopic, h]
  · simp only [deleteTopic, h]
    exact updMap_self _ _ _
  · intro sid sub hs
    by_cases hmem : sid ∈ top.subscribers
    · refine ⟨{ sub with
          topics := sub.topics.erase name
          sendChan := (offer sendChanCap sub.sendChan
            (infoFrameDeleted name now)).getD sub.sendChan },
        ?_, ?_, ?_, ?_, ?_⟩
      · simp only [deleteTopic, h]
        rw [hs]
        simp [hmem]
      · exact Finset.not_mem_erase _ _
      · rfl
      · intro _
        constructor
        · intro hlt
          simp [offer, hlt]
        · intro hge
          simp [offer, Nat.not_lt.mpr hge]
      · intro habs
        exact absurd hmem habs
    · refine ⟨{ sub with topics := sub.topics.erase name }, ?_, ?_, ?_, ?_, ?_⟩
      · simp only [deleteTopic, h]
        rw [hs]
        simp [hmem]
      · exact Finset.not_mem_erase _ _
      · rfl
      · intro hmem2
        exact absurd hmem2 hmem
      · intro _
        rfl
  · intro sid hs
    simp only [deleteTopic, h]
    rw [hs]
    rfl

/-- Witness for C7 at a registry with one attached subscriber. -/
theorem deleteTopic_spec_witness :
    (deleteTopic fanoutState "a" 5).2 = none ∧
    (deleteTopic fanoutState "a" 5).1.topics "a" = none ∧
    (∀ sid sub, fanoutState.subscribers sid = some sub →
      ∃ sub1, (deleteTopic fanoutState "a" 5).1.subscribers sid = some sub1 ∧
        "a" ∉ sub1.topics ∧ sub1.topics = sub.topics.erase "a" ∧
        (sid ∈ ({ topicA with subscribers := {"s1"} } : Topic).subscribers →
          (sub.sendChan.length < sendChanCap →
            sub1.sendChan = sub.sendChan ++ [infoFrameDeleted "a" 5]) ∧
          (sendChanCap ≤ sub.sendChan.length → sub1.sendChan = sub.sendChan)) ∧
        (sid ∉ ({ topicA with subscribers := {"s1"} } : Topic).subscribers →
          sub1.sendChan = sub.sendChan)) ∧
    (∀ sid, fanoutState.subscribers sid = none →
      (deleteTopic fanoutState "a" 5).1.subscribers sid = none) :=
  deleteTopic_spec fanoutState "a" 5 { topicA with subscribers := {"s1"} } rfl

theorem updMap_updMap {α : Type} (m : String → Option α) (k : String)
    (v w : Option α) : updMap (updMap m k v) k w = updMap m k w := by
  funext n
  by_cases hn : n = k <;> simp [updMap, hn]

theorem updMap_lookup_self {α : Type} (m : String → Option α) (k : String)
    (v : Option α) (h : m k = v) : updMap m k v = m := by
  funext n
  by_cases hn : n = k <;> simp [updMap, hn, h]

/-- C9: Unsubscribe is idempotent.  On a missing topic it returns
TOPIC_NOT_FOUND and changes nothing; on an existing topic it always
succeeds, and when the subscriber is already detached (or never
registered) the entire registry is left unchanged; applying Unsubscribe
twice with the same arguments gives the same state as applying it
once. -/
theorem unsubscribe_idempotent (ps : PubSub) (sid t : String) :
    (ps.topics t = none → unsubscribe ps sid t = (ps, some "TOPIC_NOT_FOUND")) ∧
    (∀ top, ps.topics t = some top → (unsubscribe ps sid t).2 = none) ∧
    (∀ top, ps.topics t = some top → sid ∉ top.subscribers →
       (∀ sub, ps.subscribers sid = some sub → t ∉ sub.topics) →
       (unsubscribe ps sid t).1 = ps) ∧
    (unsubscribe (unsubscribe ps sid t).1 sid t).1 = (unsubscribe ps sid t).1 := by
  refine ⟨?_, ?_, ?_, ?_⟩
  · intro h
    simp [unsubscribe, h]
  · intro top h
    cases hsub : ps.subscribers sid <;> simp [unsubscribe, h, hsub]
  · intro top h hmem hdet
    have htop1 : ({ top with subscribers := top.subscribers.erase sid } : Topic) = top := by
      rw [Finset.erase_eq_of_not_mem hmem]
    cases hsub : ps.subscribers sid with
    | none =>
      simp only [unsubscribe, h, hsub]
      rw [htop1, updMap_lookup_self ps.topics t (some top) h]
    | some sub =>
      have hsub1 : ({ sub with topics := sub.topics.erase t } : Subscriber) = sub := by
        rw [Finset.erase_eq_of_not_mem (hdet sub hsub)]
      simp only [unsubscribe, h, hsub]
      rw [htop1, updMap_lookup_self ps.topics t (some top) h, hsub1]
      rw [updMap_lookup_self ps.subscribers sid (some sub) hsub]
  · cases h : ps.topics t with
    | none =>
      simp [unsubscribe, h]
    | some top =>
      cases hsub : ps.subscribers sid with
      | none =>
        simp only [unsubscribe, h, hsub, updMap_self]
        rw [Finset.erase_idem, updMap_updMap]
      | some sub =>
        simp only [unsubscribe, h, hsub, updMap_self]
        rw [Finset.erase_idem, Finset.erase_idem, updMap_updMap, updMap_updMap]

/-- Witness for C9: unsubscribing a never-registered subscriber from an
existing topic returns the registry unchanged. -/
theorem unsubscribe_idempotent_witness :
    (unsubscribe stateA "s1" "a").1 = stateA :=
  (unsubscribe_idempotent stateA "s1" "a").2.2.1 topicA rfl (by decide)
    (fun sub hs => by simp [stateA, updMap] at hs)

theorem strongInv_empty (cap : Nat) : StrongInv (emptyPubSub cap) := by
  refine ⟨?_, ?_, ?_⟩ <;> intro a b hab <;> simp [emptyPubSub] at hab

theorem strongInv_createTopic (ps : PubSub) (name : String) (now : Nat)
    (h : StrongInv ps) : StrongInv (createTopic ps name now).1 := by
  obtain ⟨hM, hT, hS⟩ := h
  cases hE : ps.topics name with
  | some top =>
    simpa [createTopic, hE] using ⟨hM, hT, hS⟩
  | none =>
    simp only [createTopic, hE]
    refine ⟨?_, ?_, ?_⟩
    · intro sid sub hsub tn top htop
      have htop' : updMap ps.topics name
          (some { name := name, messages := [], subscribers := ∅,
                  messageCount := 0, createdAt := now, lastMessageAt := 0 }) tn =
          some top := htop
      by_cases htn : tn = name
      · subst htn
        rw [updMap_self] at htop'
        obtain rfl := Option.some_injective _ htop'.symm
        constructor
        · intro hin
          simp at hin
        · intro hin
          obtain ⟨top', htop''⟩ := hT sid sub hsub tn hin
          rw [hE] at htop''
          cases htop''
      · rw [updMap_ne _ _ _ _ htn] at htop'
        exact hM sid sub hsub tn top htop'
    · intro sid sub hsub tn htn
      by_cases h2 : tn = name
      · subst h2
        exact ⟨_, updMap_self _ _ _⟩
      · obtain ⟨top, htop⟩ := hT sid sub hsub tn htn
        refine ⟨top, ?_⟩
        show updMap ps.topics name _ tn = some top
        rw [updMap_ne _ _ _ _ h2]
        exact htop
    · intro tn top htop sid hmem
      have htop' : updMap ps.topics name
          (some { name := name, messages := [], subscribers := ∅,
                  messageCount := 0, createdAt := now, lastMessageAt := 0 }) tn =
          some top := htop
      by_cases h2 : tn = name
      · subst h2
        rw [updMap_self] at htop'
        obtain rfl := Option.some_injective _ htop'.symm
        simp at hmem
      · rw [updMap_ne _ _ _ _ h2] at htop'
        exact hS tn top htop' sid hmem

theorem strongInv_deleteTopic (ps : PubSub) (name : String) (now : Nat)
    (h : StrongInv ps) : StrongInv (deleteTopic ps name now).1 := by
  obtain ⟨hM, hT, hS⟩ := h
  cases hE : ps.topics name with
  | none =>
    simpa [deleteTopic, hE] using ⟨hM, hT, hS⟩
  | some top =>
    simp only [deleteTopic, hE]
    have hsub' : ∀ sid sub',
        ((ps.subscribers sid).map fun sub =>
          if sid ∈ top.subscribers then
            { sub with
              sendChan := (offer sendChanCap sub.sendChan
                (infoFrameDeleted name now)).getD sub.sendChan
              topics := sub.topics.erase name }
          else { sub with topics := sub.topics.erase name }) = some sub' →
        ∃ sub, ps.subscribers sid = some sub ∧
          sub'.topics = sub.topics.erase name := by
      intro sid sub' hmap
      obtain ⟨sub, hsub, hfn⟩ := Option.map_eq_some'.mp hmap
      refine ⟨sub, hsub, ?_⟩
      rw [← hfn]
      by_cases hm : sid ∈ top.subscribers <;> simp [hm]
    have htop' : ∀ tn top', updMap ps.topics name none tn = some top' →
        tn ≠ name ∧ ps.topics tn = some top' := by
      intro tn top' hu
      by_cases h2 : tn = name
      · subst h2
        rw [updMap_self] at hu
        cases hu
      · rw [updMap_ne _ _ _ _ h2] at hu
        exact ⟨h2, hu⟩
    refine ⟨?_, ?_, ?_⟩
    · intro sid sub' hmap tn top' hu
      obtain ⟨sub, hsub, herase⟩ := hsub' sid sub' hmap
      obtain ⟨hne, hold⟩ := htop' tn top' hu
      rw [herase, Finset.mem_erase]
      constructor
      · intro hin
        exact ⟨hne, (hM sid sub hsub tn top' hold).mp hin⟩
      · intro hin
        exact (hM sid sub hsub tn top' hold).mpr hin.2
    · intro sid sub' hmap tn htn
      obtain ⟨sub, hsub, herase⟩ := hsub' sid sub' hmap
      rw [herase, Finset.mem_erase] at htn
      obtain ⟨top1, htop1⟩ := hT sid sub hsub tn htn.2
      refine ⟨top1, ?_⟩
      show updMap ps.topics name none tn = some top1
      rw [updMap_ne _ _ _ _ htn.1]
      exact htop1
    · intro tn top' hu sid hmem
      obtain ⟨hne, hold⟩ := htop' tn top' hu
      obtain ⟨sub, hsub⟩ := hS tn top' hold sid hmem
      exact ⟨_, Option.map_eq_some'.mpr ⟨sub, hsub, rfl⟩⟩

theorem subscribe_eq (ps : PubSub) (sid t : String) (lastN : Int) (now : Nat)
    (top : Topic) (hE : ps.topics t = some top) :
    ∃ sub2 : Subscriber,
      (subscribe ps sid t lastN now).1 =
        { ps with
            subscribers := updMap ps.subscribers sid (some sub2)
            topics := updMap ps.topics t
              (some { top with subscribers := insert sid top.subscribers }) } ∧
      sub2.topics =
        insert t (((ps.subscribers sid).map Subscriber.topics).getD ∅) := by
  cases hsub0 : ps.subscribers sid with
  | none =>
    by_cases hl : 0 < lastN
    · refine ⟨sendHistoricalMessages
        { id := sid, topics := insert t ∅, sendChan := [] }
        { top with subscribers := insert sid top.subscribers }
        lastN.toNat now, ?_, ?_⟩
      · simp only [subscribe, hE, hsub0, if_pos hl]
      · simp [sendHistoricalMessages, hsub0]
    · refine ⟨{ id := sid, topics := insert t ∅, sendChan := [] }, ?_, ?_⟩
      · simp only [subscribe, hE, hsub0, if_neg hl]
      · simp [hsub0]
  | some s =>
    by_cases hl : 0 < lastN
    · refine ⟨sendHistoricalMessages
        { s with topics := insert t s.topics }
        { top with subscribers := insert sid top.subscribers }
        lastN.toNat now, ?_, ?_⟩
      · simp only [subscribe, hE, hsub0, if_pos hl]
      · simp [sendHistoricalMessages, hsub0]
    · refine ⟨{ s with topics := insert t s.topics }, ?_, ?_⟩
      · simp only [subscribe, hE, hsub0, if_neg hl]
      · simp [hsub0]

theorem strongInv_subscribe (ps : PubSub) (sid t : String) (lastN : Int)
    (now : Nat) (h : StrongInv ps) :
    StrongInv (subscribe ps sid t lastN now).1 := by
  obtain ⟨hM, hT, hS⟩ := h
  cases hE : ps.topics t with
  | none =>
    simpa [subscribe, hE] using ⟨hM, hT, hS⟩
  | some top =>
    obtain ⟨sub2, heq, htop2⟩ := subscribe_eq ps sid t lastN now top hE
    rw [heq]
    refine ⟨?_, ?_, ?_⟩
    · intro sid' sub' hsub' tn top' htop'
      have hsub'' : updMap ps.subscribers sid (some sub2) sid' = some sub' :=
        hsub'
      have htop'' : updMap ps.topics t
          (some { top with subscribers := insert sid top.subscribers }) tn =
          some top' := htop'
      by_cases hsid : sid' = sid
      · subst hsid
        rw [updMap_self] at hsub''
        obtain rfl := Option.some_injective _ hsub''.symm
        by_cases htn : tn = t
        · subst htn
          rw [updMap_self] at htop''
          obtain rfl := Option.some_injective _ htop''.symm
          simp [htop2]
        · rw [updMap_ne _ _ _ _ htn] at htop''
          rw [htop2, Finset.mem_insert]
          cases hsub0 : ps.subscribers sid' with
          | none =>
            constructor
            · intro hin
              obtain ⟨s, hs⟩ := hS tn top' htop'' sid' hin
              rw [hsub0] at hs
              cases hs
            · rintro (h1 | h2)
              · exact absurd h1 htn
              · simp [hsub0] at h2
          | some s =>
            rw [hM sid' s hsub0 tn top' htop'']
            simp [hsub0, htn]
      · rw [updMap_ne _ _ _ _ hsid] at hsub''
        by_cases htn : tn = t
        · subst htn
          rw [updMap_self] at htop''
          obtain rfl := Option.some_injective _ htop''.symm
          rw [Finset.mem_insert]
          have hiff := hM sid' sub' hsub'' tn top hE
          constructor
          · rintro (h1 | h2)
            · exact absurd h1 hsid
            · exact hiff.mp h2
          · intro hin
            exact Or.inr (hiff.mpr hin)
        · rw [updMap_ne _ _ _ _ htn] at htop''
          exact hM sid' sub' hsub'' tn top' htop''
    · intro sid' sub' hsub' tn htn
      have hsub'' : updMap ps.subscribers sid (some sub2) sid' = some sub' :=
        hsub'
      by_cases htnt : tn = t
      · subst htnt
        refine ⟨{ top with subscribers := insert sid top.subscribers }, ?_⟩
        show updMap ps.topics tn
          (some { top with subscribers := insert sid top.subscribers }) tn =
          some { top with subscribers := insert sid top.subscribers }
        exact updMap_self _ _ _
      · have hold : ∃ topx, ps.topics tn = some topx := by
          by_cases hsid : sid' = sid
          · subst hsid
            rw [updMap_self] at hsub''
            obtain rfl := Option.some_injective _ hsub''.symm
            rw [htop2, Finset.mem_insert] at htn
            rcases htn with rfl | h2
            · exact absurd rfl htnt
            · cases hsub0 : ps.subscribers sid' with
              | none =>
                rw [hsub0] at h2
                simp at h2
              | some s =>
                rw [hsub0] at h2
                simp at h2
                exact hT sid' s hsub0 tn h2
          · rw [updMap_ne _ _ _ _ hsid] at hsub''
            exact hT sid' sub' hsub'' tn htn
        obtain ⟨topx, htopx⟩ := hold
        refine ⟨topx, ?_⟩
        show updMap ps.topics t
          (some { top with subscribers := insert sid top.subscribers }) tn = _
        rw [updMap_ne _ _ _ _ htnt]
        exact htopx
    · intro tn top' htop' sid' hmem
      have htop'' : updMap ps.topics t
          (some { top with subscribers := insert sid top.subscribers }) tn =
          some top' := htop'
      by_cases hsid : sid' = sid
      · subst hsid
        refine ⟨sub2, ?_⟩
        show updMap ps.subscribers sid' (some sub2) sid' = _
        rw [updMap_self]
      · have hold : ∃ s, ps.subscribers sid' = some s := by
          by_cases htnt : tn = t
          · subst htnt
            rw [updMap_self] at htop''
            obtain rfl := Option.some_injective _ htop''.symm
            rw [Finset.mem_insert] at hmem
            rcases hmem with h1 | h2
            · exact absurd h1 hsid
            · exact hS tn top hE sid' h2
          · rw [updMap_ne _ _ _ _ htnt] at htop''
            exact hS tn top' htop'' sid' hmem
        obtain ⟨s, hs⟩ := hold
        refine ⟨s, ?_⟩
        show updMap ps.subscribers sid (some sub2) sid' = _
        rw [updMap_ne _ _ _ _ hsid]
        exact hs

theorem strongInv_unsubscribe (ps : PubSub) (sid t : String)
    (h : StrongInv ps) : StrongInv (unsubscribe ps sid t).1 := by
  obtain ⟨hM, hT, hS⟩ := h
  cases hE : ps.topics t with
  | none =>
    simpa [unsubscribe, hE] using ⟨hM, hT, hS⟩
  | some top =>
    cases hsub0 : ps.subscribers sid with
    | none =>
      simp only [unsubscribe, hE, hsub0]
      refine ⟨?_, ?_, ?_⟩
      · intro sid' sub' hsub' tn top' htop'
        have htop'' : updMap ps.topics t
            (some { top with subscribers := top.subscribers.erase sid }) tn =
            some top' := htop'
        have hsub'' : ps.subscribers sid' = some sub' := hsub'
        have hsid : sid' ≠ sid := by
          rintro rfl
          rw [hsub0] at hsub''
          cases hsub''
        by_cases htn : tn = t
        · subst htn
          rw [updMap_self] at htop''
          obtain rfl := Option.some_injective _ htop''.symm
          have hiff := hM sid' sub' hsub'' tn top hE
          show sid' ∈ top.subscribers.erase sid ↔ tn ∈ sub'.topics
          rw [Finset.mem_erase]
          constructor
          · rintro ⟨-, h2⟩
            exact hiff.mp h2
          · intro h2
            exact ⟨hsid, hiff.mpr h2⟩
        · rw [updMap_ne _ _ _ _ htn] at htop''
          exact hM sid' sub' hsub'' tn top' htop''
      · intro sid' sub' hsub' tn htn
        have hsub'' : ps.subscribers sid' = some sub' := hsub'
        obtain ⟨topx, htopx⟩ := hT sid' sub' hsub'' tn htn
        by_cases htn2 : tn = t
        · subst htn2
          refine ⟨{ top with subscribers := top.subscribers.erase sid }, ?_⟩
          show updMap ps.topics tn
            (some { top with subscribers := top.subscribers.erase sid }) tn =
            some { top with subscribers := top.subscribers.erase sid }
          exact updMap_self _ _ _
        · refine ⟨topx, ?_⟩
          show updMap ps.topics t
            (some { top with subscribers := top.subscribers.erase sid }) tn =
            some topx
          rw [updMap_ne _ _ _ _ htn2]
          exact htopx
      · intro tn top' htop' sid' hmem
        have htop'' : updMap ps.topics t
            (some { top with subscribers := top.subscribers.erase sid }) tn =
            some top' := htop'
        by_cases htn : tn = t
        · subst htn
          rw [updMap_self] at htop''
          obtain rfl := Option.some_injective _ htop''.symm
          rw [Finset.mem_erase] at hmem
          exact hS tn top hE sid' hmem.2
        · rw [updMap_ne _ _ _ _ htn] at htop''
          exact hS tn top' htop'' sid' hmem
    | some sub =>
      simp only [unsubscribe, hE, hsub0]
      refine ⟨?_, ?_, ?_⟩
      · intro sid' sub' hsub' tn top' htop'
        have htop'' : updMap ps.topics t
            (some { top with subscribers := top.subscribers.erase sid }) tn =
            some top' := htop'
        have hsub'' : updMap ps.subscribers sid
            (some { sub with topics := sub.topics.erase t }) sid' =
            some sub' := hsub'
        by_cases hsid : sid' = sid
        · subst hsid
          rw [updMap_self] at hsub''
          obtain rfl := Option.some_injective _ hsub''.symm
          by_cases htn : tn = t
          · subst htn
            rw [updMap_self] at htop''
            obtain rfl := Option.some_injective _ htop''.symm
            show sid' ∈ top.subscribers.erase sid' ↔
              tn ∈ sub.topics.erase tn
            simp
          · rw [updMap_ne _ _ _ _ htn] at htop''
            have hiff := hM sid' sub hsub0 tn top' htop''
            show sid' ∈ top'.subscribers ↔ tn ∈ sub.topics.erase t
            rw [Finset.mem_erase]
            constructor
            · intro h2
              exact ⟨htn, hiff.mp h2⟩
            · rintro ⟨-, h2⟩
              exact hiff.mpr h2
        · rw [updMap_ne _ _ _ _ hsid] at hsub''
          by_cases htn : tn = t
          · subst htn
            rw [updMap_self] at htop''
            obtain rfl := Option.some_injective _ htop''.symm
            have hiff := hM sid' sub' hsub'' tn top hE
            show sid' ∈ top.subscribers.erase sid ↔ tn ∈ sub'.topics
            rw [Finset.mem_erase]
            constructor
            · rintro ⟨-, h2⟩
              exact hiff.mp h2
            · intro h2
              exact ⟨hsid, hiff.mpr h2⟩
          · rw [updMap_ne _ _ _ _ htn] at htop''
            exact hM sid' sub' hsub'' tn top' htop''
      · intro sid' sub' hsub' tn htn
        have hsub'' : updMap ps.subscribers sid
            (some { sub with topics := sub.topics.erase t }) sid' =
            some sub' := hsub'
        have hold : ∃ topx, ps.topics tn = some topx ∨ tn = t := by
          by_cases hsid : sid' = sid
          · subst hsid
            rw [updMap_self] at hsub''
            obtain rfl := Option.some_injective _ hsub''.symm
            rw [Finset.mem_erase] at htn
            obtain ⟨topx, htopx⟩ := hT sid' sub hsub0 tn htn.2
            exact ⟨topx, Or.inl htopx⟩
          · rw [updMap_ne _ _ _ _ hsid] at hsub''
            obtain ⟨topx, htopx⟩ := hT sid' sub' hsub'' tn htn
            exact ⟨topx, Or.inl htopx⟩
        by_cases htn2 : tn = t
        · subst htn2
          refine ⟨{ top with subscribers := top.subscribers.erase sid }, ?_⟩
          show updMap ps.topics tn
            (some { top with subscribers := top.subscribers.erase sid }) tn =
            some { top with subscribers := top.subscribers.erase sid }
          exact updMap_self _ _ _
        · obtain ⟨topx, htopx | habs⟩ := hold
          · refine ⟨topx, ?_⟩
            show updMap ps.topics t
              (some { top with subscribers := top.subscribers.erase sid }) tn =
              some topx
            rw [updMap_ne _ _ _ _ htn2]
            exact htopx
          · exact absurd habs htn2
      · intro tn top' htop' sid' hmem
        have htop'' : updMap ps.topics t
            (some { top with subscribers := top.subscribers.erase sid }) tn =
            some top' := htop'
        by_cases hsid : sid' = sid
        · subst hsid
          refine ⟨{ sub with topics := sub.topics.erase t }, ?_⟩
          show updMap ps.subscribers sid'
            (some { sub with topics := sub.topics.erase t }) sid' =
            some { sub with topics := sub.topics.erase t }
          exact updMap_self _ _ _
        · have hreg : ∃ s, ps.subscribers sid' = some s := by
            by_cases htn : tn = t
            · subst htn
              rw [updMap_self] at htop''
              obtain rfl := Option.some_injective _ htop''.symm
              rw [Finset.mem_erase] at hmem
              exact hS tn top hE sid' hmem.2
            · rw [updMap_ne _ _ _ _ htn] at htop''
              exact hS tn top' htop'' sid' hmem
          obtain ⟨s, hs⟩ := hreg
          refine ⟨s, ?_⟩
          show updMap ps.subscribers sid
            (some { sub with topics := sub.topics.erase t }) sid' = some s
          rw [updMap_ne _ _ _ _ hsid]
          exact hs

theorem strongInv_removeSubscriber (ps : PubSub) (sid : String)
    (h : StrongInv ps) : StrongInv (removeSubscriber ps sid) := by
  obtain ⟨hM, hT, hS⟩ := h
  cases hsub0 : ps.subscribers sid with
  | none =>
    simpa [removeSubscriber, hsub0] using ⟨hM, hT, hS⟩
  | some sub =>
    simp only [removeSubscriber, hsub0]
    refine ⟨?_, ?_, ?_⟩
    · intro sid' sub' hsub' tn top' htop'
      have hsub'' : updMap ps.subscribers sid none sid' = some sub' := hsub'
      have hne : sid' ≠ sid := by
        rintro rfl
        rw [updMap_self] at hsub''
        cases hsub''
      rw [updMap_ne _ _ _ _ hne] at hsub''
      have htop''' : ((ps.topics tn).map fun top =>
          if tn ∈ sub.topics then
            { top with subscribers := top.subscribers.erase sid }
          else top) = some top' := htop'
      obtain ⟨top, htop, hfn⟩ := Option.map_eq_some'.mp htop'''
      have hmemiff : sid' ∈ top'.subscribers ↔ sid' ∈ top.subscribers := by
        rw [← hfn]
        by_cases htn : tn ∈ sub.topics <;>
          simp [htn, Finset.mem_erase, hne]
      rw [hmemiff]
      exact hM sid' sub' hsub'' tn top htop
    · intro sid' sub' hsub' tn htn
      have hsub'' : updMap ps.subscribers sid none sid' = some sub' := hsub'
      have hne : sid' ≠ sid := by
        rintro rfl
        rw [updMap_self] at hsub''
        cases hsub''
      rw [updMap_ne _ _ _ _ hne] at hsub''
      obtain ⟨topx, htopx⟩ := hT sid' sub' hsub'' tn htn
      exact ⟨_, Option.map_eq_some'.mpr ⟨topx, htopx, rfl⟩⟩
    · intro tn top' htop' sid' hmem
      have htop''' : ((ps.topics tn).map fun top =>
          if tn ∈ sub.topics then
            { top with subscribers := top.subscribers.erase sid }
          else top) = some top' := htop'
      obtain ⟨top, htop, hfn⟩ := Option.map_eq_some'.mp htop'''
      by_cases htn : tn ∈ sub.topics
      · rw [if_pos htn] at hfn
        rw [← hfn, Finset.mem_erase] at hmem
        obtain ⟨s, hs⟩ := hS tn top htop sid' hmem.2
        refine ⟨s, ?_⟩
        show updMap ps.subscribers sid none sid' = some s
        rw [updMap_ne _ _ _ _ hmem.1]
        exact hs
      · rw [if_neg htn] at hfn
        rw [← hfn] at hmem
        have hne : sid' ≠ sid := by
          rintro rfl
          exact htn ((hM sid' sub hsub0 tn top htop).mp hmem)
        obtain ⟨s, hs⟩ := hS tn top htop sid' hmem
        refine ⟨s, ?_⟩
        show updMap ps.subscribers sid none sid' = some s
        rw [updMap_ne _ _ _ _ hne]
        exact hs

theorem reachable_strongInv (ps : PubSub) (h : Reachable ps) :
    StrongInv ps := by
  induction h with
  | init cap => exact strongInv_empty cap
  | create ps name now _ ih => exact strongInv_createTopic ps name now ih
  | delete ps name now _ ih => exact strongInv_deleteTopic ps name now ih
  | sub ps sid t lastN now _ ih => exact strongInv_subscribe ps sid t lastN now ih
  | unsub ps sid t _ ih => exact strongInv_unsubscribe ps sid t ih
  | remove ps sid _ ih => exact strongInv_removeSubscriber ps sid ih

/-- C8: in every state reachable from the empty registry by CreateTopic,
DeleteTopic, Subscribe, Unsubscribe and RemoveSubscriber, a registered
subscriber is in a topic's subscriber set exactly when the topic's name
is in the subscriber's topic set. -/
theorem membership_invariant_reachable (ps : PubSub) (h : Reachable ps) :
    ∀ sid sub, ps.subscribers sid = some sub →
      ∀ tn top, ps.topics tn = some top →
        (sid ∈ top.subscribers ↔ tn ∈ sub.topics) :=
  (reachable_strongInv ps h).1

/-- A state reached by creating topic a and subscribing s1 to it. -/
def reachedState : PubSub :=
  (subscribe (createTopic (emptyPubSub 5) "a" 0).1 "s1" "a" 0 0).1

/-- The topic value held at key a in reachedState. -/
def reachedTopicA : Topic :=
  { name := "a", messages := [], subscribers := insert "s1" ∅,
    messageCount := 0, createdAt := 0, lastMessageAt := 0 }

/-- The subscriber value held at key s1 in reachedState. -/
def reachedSubS1 : Subscriber :=
  { id := "s1", topics := insert "a" ∅, sendChan := [] }

/-- Witness for C8 at a concrete reachable state. -/
theorem membership_invariant_reachable_witness :
    ("s1" ∈ reachedTopicA.subscribers ↔ "a" ∈ reachedSubS1.topics) :=
  membership_invariant_reachable reachedState
    (Reachable.sub (createTopic (emptyPubSub 5) "a" 0).1 "s1" "a" 0 0
      (Reachable.create (emptyPubSub 5) "a" 0 (Reachable.init 5)))
    "s1" reachedSubS1 (by decide) "a" reachedTopicA (by decide)

end PubSubSys
